import Mathlib

/-!
Shallow embedding of the jsoncpp document model (src/unnamed/part_001 = json/value.h,
src/unnamed/part_002 = json_value.cpp) and proofs about its specification claims.

Modelling conventions:
* C strings (`const char*` buffers handled through `strcmp`) are byte lists
  (`List Nat`), with no embedded NUL byte; `strcmp` is translated literally as a
  three-way lexicographic byte comparison.
* `double` payloads are modelled by IEEE-754 value class (`DReal`): NaN, −∞, +∞,
  or a finite value carried as an exact rational (`ℚ`) — every finite double is a
  rational, and all comparisons the code performs against integer bounds
  (`minInt`, `maxInt`, `maxUInt`, `0.0`) are exact for doubles, so the ordering and
  range tests translate without rounding concerns.  Comparisons follow IEEE
  semantics: every comparison involving NaN is false (NaN is unequal even to
  itself).
* Machine integers: `Json::Int` is 32-bit signed, `Json::UInt` 32-bit unsigned,
  the union payloads `int_` / `uint_` are `LargestInt`/`LargestUInt` (64-bit);
  the widths come from the spec ("a 32-bit signed Int", "64-bit signed integer"),
  since `forwards.h` is not part of the sources.
* Pointer identity short-circuits (`cstr_ == other.cstr_`, `string_ == other.string_`)
  are subsumed by content comparison: equal pointers imply equal content, and every
  code path below the short-circuit computes the same answer on equal content, so the
  content-level translation is exact.
* Reading a union member that was not the last one written is undefined behaviour in
  the source; the `...Of` readers below return a fixed default in that case.  All
  embedded operations first switch on `type_` exactly as the source does, so the
  defaults are only reachable from states the C++ API cannot construct.
-/

namespace JsonModel

/-- The eight-way discriminant `Json::ValueType` (part_001, lines 43-52):
`nullValue = 0, intValue, uintValue, realValue, stringValue, booleanValue,
arrayValue, objectValue`. -/
inductive ValueType where
| nullValue
| intValue
| uintValue
| realValue
| stringValue
| booleanValue
| arrayValue
| objectValue
deriving DecidableEq

/-- Numeric value of the `ValueType` enumerator (it is declared `: uint8_t` with
`nullValue = 0` and default consecutive values). -/
def ValueType.toNat : ValueType → Nat
| .nullValue => 0
| .intValue => 1
| .uintValue => 2
| .realValue => 3
| .stringValue => 4
| .booleanValue => 5
| .arrayValue => 6
| .objectValue => 7

/-- A zero-terminated C string, modelled as its list of bytes (without the
terminating NUL; no interior NUL bytes occur). -/
abbrev CStr : Type := List Nat

/-- `strcmp`, translated as the usual three-way lexicographic byte comparison:
negative / zero / positive becomes `-1` / `0` / `1`. -/
def strcmp : CStr → CStr → Int
| [], [] => 0
| [], _ :: _ => -1
| _ :: _, [] => 1
| a :: as, b :: bs => if a < b then -1 else if b < a then 1 else strcmp as bs

/-- `Value::CZString::DuplicationPolicy` (part_001, lines 164-168):
`noDuplication = 0, duplicate, duplicateOnCopy`. -/
def noDuplication : Nat := 0

/-- `duplicate` enumerator of `DuplicationPolicy`. -/
def duplicate : Nat := 1

/-- `duplicateOnCopy` enumerator of `DuplicationPolicy`. -/
def duplicateOnCopy : Nat := 2

/-- `Value::CZString` (part_001, lines 162-186): a store key.  `cstr_ = none`
models a null `const char*` (an Index key); `index_` holds the array index for
Index keys and the `DuplicationPolicy` enumerator for Name keys, exactly as in
the source where the two share one field. -/
structure CZString where
cstr_ : Option CStr
index_ : Nat
deriving DecidableEq

namespace CZString

/-- `CZString::CZString(ArrayIndex index)` (part_002, line 81). -/
def ofIndex (index : Nat) : CZString := ⟨none, index⟩

/-- `CZString::CZString(const char* cstr, DuplicationPolicy allocate)` (part_002,
lines 83-84): duplicating or borrowing yields the same byte content; `index_`
records the policy. -/
def ofCStrPolicy (cstr : CStr) (allocate : Nat) : CZString := ⟨some cstr, allocate⟩

/-- `CZString::CZString(std::string_view str)` (part_002, lines 90-91), for a
non-null view: duplicates and records policy `duplicate`. -/
def ofSV (str : CStr) : CZString := ⟨some str, duplicate⟩

/-- `CZString::CZString(const CZString& other)` (part_002, lines 86-88): the
buffer is duplicated unless the policy is `noDuplication` (content unchanged
either way); a stored string's policy becomes `duplicate` unless it was
`noDuplication`; an Index key is copied verbatim. -/
def copy (other : CZString) : CZString :=
{ cstr_ := other.cstr_
  index_ :=
    match other.cstr_ with
    | some _ => if other.index_ = noDuplication then noDuplication else duplicate
    | none => other.index_ }

/-- `CZString::operator<` (part_002, lines 109-117).  Equal pointers return
`false` outright; that short-circuit is subsumed here because equal pointers
have equal content and `strcmp` then yields `0`. -/
def lt (a b : CZString) : Bool :=
match a.cstr_, b.cstr_ with
| some x, some y => decide (strcmp x y < 0)
| _, _ => false

/-- `CZString::operator==` (part_002, lines 119-127): if either pointer is null
the result is pointer equality (both null); otherwise content equality. -/
def eqOp (a b : CZString) : Bool :=
match a.cstr_, b.cstr_ with
| none, none => true
| some x, some y => decide (strcmp x y = 0)
| _, _ => false

/-- `CZString::index()` (part_002, lines 129-131). -/
def index (a : CZString) : Nat := a.index_

/-- `CZString::isStaticString()` (part_002, lines 141-143). -/
def isStaticString (a : CZString) : Bool := a.index_ = noDuplication

/-- Key equivalence induced by the store's comparator (`CZStringCompare`,
part_001 lines 188-210, delegates to `operator<`): `std::map` treats two keys as
the same when neither is less than the other. -/
def equiv (a b : CZString) : Bool := !lt a b && !lt b a

end CZString

/-- Modelled from the spec: the integer widths declared in `forwards.h`, which is
not among the sources.  The spec fixes `Int` as 32-bit signed ("converting a
UInt ≥ 2^31 to a 32-bit signed Int") and the union payloads as 64-bit
("64-bit signed integer, 64-bit unsigned integer").  `minInt`
(`Value::minInt = std::numeric_limits<Int>::min()`). -/
def minInt : Int := -(2 ^ 31)

/-- Modelled from the spec: `Value::maxInt = std::numeric_limits<Int>::max()`,
`Int` being 32-bit signed (see `minInt`). -/
def maxInt : Int := 2 ^ 31 - 1

/-- Modelled from the spec: `Value::maxUInt = std::numeric_limits<UInt>::max()`,
`UInt` being 32-bit unsigned. -/
def maxUInt : Nat := 2 ^ 32 - 1

/-- A C++ `double`, by IEEE-754 value class: NaN, −∞, a finite value (every
finite double is an exact rational), or +∞. -/
inductive DReal where
| nan : DReal
| ninf : DReal
| fin : ℚ → DReal
| pinf : DReal
deriving DecidableEq

namespace DReal

/-- IEEE `<` on doubles: false whenever either operand is NaN;
−∞ < finite < +∞; finite values compare exactly. -/
def ltB : DReal → DReal → Bool
| .nan, _ => false
| _, .nan => false
| .ninf, .ninf => false
| .ninf, .fin _ => true
| .ninf, .pinf => true
| .fin _, .ninf => false
| .fin a, .fin b => decide (a < b)
| .fin _, .pinf => true
| .pinf, _ => false

/-- IEEE `<=` on doubles: false whenever either operand is NaN. -/
def leB : DReal → DReal → Bool
| .nan, _ => false
| _, .nan => false
| .ninf, _ => true
| _, .ninf => false
| .fin a, .fin b => decide (a ≤ b)
| _, .pinf => true
| .pinf, _ => false

/-- IEEE `==` on doubles: NaN is unequal to everything, itself included. -/
def eqB : DReal → DReal → Bool
| .fin a, .fin b => decide (a = b)
| .ninf, .ninf => true
| .pinf, .pinf => true
| _, _ => false

/-- The finite value; default `0` for NaN/infinities — only read behind
range guards that exclude them. -/
def toQ : DReal → ℚ
| .fin q => q
| _ => 0

end DReal

mutual
/-- `Json::Value` (part_001, lines 118-413): discriminant `type_`, union payload
`value_` (modelled as `ValueHolder`), and the string-ownership flag
`allocated_`. -/
inductive Value where
| mk (type_ : ValueType) (holder : ValueHolder) (allocated_ : Bool) : Value
/-- The union `Value::ValueHolder` (part_001, lines 403-410).  One constructor
per member; `hnull` stands for the zero-initialised union (`value_{}`). -/
inductive ValueHolder where
| hnull : ValueHolder
| hint : Int → ValueHolder
| huint : Nat → ValueHolder
| hreal : DReal → ValueHolder
| hbool : Bool → ValueHolder
| hstring : Option CStr → ValueHolder
| hmap : List (CZString × Value) → ValueHolder
end

/-- `Value::ObjectValues = std::map<CZString, Value, CZStringCompare>`
(part_001, line 213), modelled as its entry sequence in iteration
(comparator-sorted) order. -/
abbrev ObjectValues : Type := List (CZString × Value)

namespace Value

/-- The `type_` member. -/
def type_ : Value → ValueType
| .mk t _ _ => t

/-- The `value_` member (union). -/
def holder : Value → ValueHolder
| .mk _ h _ => h

/-- The `allocated_` member. -/
def allocated_ : Value → Bool
| .mk _ _ a => a

end Value

namespace ValueHolder

/-- Reading the union member `int_`; default `0` models a read of a member that
was not the last one written (unreachable through the API). -/
def intOf : ValueHolder → Int
| .hint i => i
| _ => 0

/-- Reading the union member `uint_` (see `intOf` for the default). -/
def uintOf : ValueHolder → Nat
| .huint u => u
| _ => 0

/-- Reading the union member `real_` (see `intOf` for the default; the
zero-initialised union reads as `0.0`). -/
def realOf : ValueHolder → DReal
| .hreal r => r
| _ => .fin 0

/-- Reading the union member `bool_` (see `intOf` for the default). -/
def boolOf : ValueHolder → Bool
| .hbool b => b
| _ => false

/-- Reading the union member `string_` (see `intOf` for the default; `none` is a
null `char*`). -/
def strOf : ValueHolder → Option CStr
| .hstring s => s
| _ => none

/-- Reading the union member `map_` (see `intOf` for the default). -/
def mapOf : ValueHolder → List (CZString × Value)
| .hmap m => m
| _ => []

end ValueHolder

open ValueHolder

namespace Value

/-- `Value::Value(ValueType type)` (part_002, lines 159-185). -/
def ctorType (type : ValueType) : Value :=
match type with
| .nullValue => .mk .nullValue .hnull false
| .intValue => .mk .intValue (.hint 0) false
| .uintValue => .mk .uintValue (.huint 0) false
| .realValue => .mk .realValue (.hreal (.fin 0)) false
| .stringValue => .mk .stringValue (.hstring none) false
| .booleanValue => .mk .booleanValue (.hbool false) false
| .arrayValue => .mk .arrayValue (.hmap []) false
| .objectValue => .mk .objectValue (.hmap []) false

/-- The default-constructed value (`Value v;`), i.e. `ctorType nullValue`. -/
def ctorDefault : Value := ctorType .nullValue

/-- The process-wide sentinel `Value::null` (part_002, line 153). -/
def nullSentinel : Value := ctorDefault

/-- `Value::Value(Int64)` / `Value::Value(Int)` (part_002, lines 191-197). -/
def ofInt (value : Int) : Value := .mk .intValue (.hint value) false

/-- `Value::Value(UInt64)` / `Value::Value(UInt)` (part_002, lines 188-200). -/
def ofUInt (value : Nat) : Value := .mk .uintValue (.huint value) false

/-- `Value::Value(double)` (part_002, lines 202-203), for an arbitrary double
— NaN and infinities included. -/
def ofRealD (value : DReal) : Value := .mk .realValue (.hreal value) false

/-- `Value::Value(double)` (part_002, lines 202-203), for a finite double. -/
def ofReal (value : ℚ) : Value := .mk .realValue (.hreal (.fin value)) false

/-- `Value::Value(bool)` (part_002, lines 217-218). -/
def ofBool (value : Bool) : Value := .mk .booleanValue (.hbool value) false

/-- `Value::Value(const char*)` (part_002, lines 205-206): duplicates the buffer
and sets `allocated_`. -/
def ofCString (value : CStr) : Value := .mk .stringValue (.hstring (some value)) true

/-- `Value::Value(const StaticString&)` (part_002, lines 208-209): borrows the
buffer, `allocated_` stays `false`. -/
def ofStaticString (value : CStr) : Value := .mk .stringValue (.hstring (some value)) false

end Value

mutual
/-- `Value::Value(const Value&)` (part_002, lines 220-246): scalars copy the
union verbatim; a non-null string is always re-duplicated (`allocated_`
becomes `true`, regardless of `other.allocated_`); a null string pointer is
copied with `allocated_ = false`; Array/Object deep-copy the store
(`new ObjectValues(*other.value_.map_)`), each entry through the `CZString` and
`Value` copy constructors. -/
def Value.copyCtor : Value → Value
| .mk t h _ =>
  match t with
  | .stringValue =>
    match strOf h with
    | some s => .mk t (.hstring (some s)) true
    | none => .mk t (.hstring none) false
  | .arrayValue | .objectValue =>
    match h with
    | .hmap m => .mk t (.hmap (copyEntries m)) false
    | _ => .mk t (.hmap []) false
  | _ => .mk t h false

/-- Entrywise copy of an `ObjectValues` store, as performed by the `std::map`
copy constructor (key and mapped value are copy-constructed pairwise). -/
def copyEntries : List (CZString × Value) → List (CZString × Value)
| [] => []
| (k, v) :: rest => (CZString.copy k, Value.copyCtor v) :: copyEntries rest
end

namespace Value

/-- `Value::swap` (part_002, lines 290-293): exchanges `type_` and `value_` but
NOT `allocated_`.  Returns the post-states of `(this, other)`. -/
def swapOp (a b : Value) : Value × Value :=
(.mk b.type_ b.holder a.allocated_, .mk a.type_ a.holder b.allocated_)

/-- `Value::Value(Value&&)` (part_002, lines 248-252): default-construct, then
swap with the source.  Returns (new value, source post-state). -/
def moveCtor (other : Value) : Value × Value := swapOp ctorDefault other

/-- `Value::operator=(Value&&)` (part_002, lines 283-288) for distinct objects:
swap with the source.  Returns (assignee post-state, source post-state). -/
def moveAssign (this other : Value) : Value × Value := swapOp this other

/-- `Value::operator=(const Value&)` (part_002, lines 275-281) for distinct
objects: copy-construct a temporary and swap — the assignee takes the copy's
`type_`/`value_` but keeps its own `allocated_` flag (swap does not exchange
it). -/
def copyAssign (this other : Value) : Value :=
(swapOp this (copyCtor other)).1

end Value

/-- `value_.bool_ < other.value_.bool_` (C++ `bool` comparison: `false < true`). -/
def boolLtB (a b : Bool) : Bool := !a && b

/-- The string branch of `Value::operator<` (part_002, lines 322-324):
`(!string_ && other.string_) || (other.string_ && string_ && strcmp < 0)`. -/
def strOptLt : Option CStr → Option CStr → Bool
| none, some _ => true
| some x, some y => decide (strcmp x y < 0)
| _, _ => false

/-- The string branch of `Value::operator==` (part_002, lines 364-366):
pointer equality (both null) or both non-null with equal content. -/
def strOptEq : Option CStr → Option CStr → Bool
| none, none => true
| some x, some y => decide (strcmp x y = 0)
| _, _ => false

/-- `int delta = int(map.size() - other.map.size())` (part_002, line 327): the
`size_t` subtraction wraps modulo `2^64` and the cast to `int` truncates to a
signed 32-bit value; `(a - b) mod 2^64 mod 2^32 = (a - b) mod 2^32`. -/
def int32OfSizeDelta (a b : Nat) : Int :=
let m := ((a : Int) - (b : Int)) % (2 ^ 32)
if m < 2 ^ 31 then m else m - 2 ^ 32

mutual
/-- `Value::operator<` (part_002, lines 307-336): tag order decides for distinct
tags (`typeDelta = type_ - other.type_`, exact since the `uint8_t` enumerators
are promoted to `int`); equal tags compare the payload natively; Array/Object
compare first by truncated size difference, then by the store's lexicographic
order (`std::map::operator<` over pairs). -/
def Value.vlt : Value → Value → Bool
| .mk t1 h1 _, .mk t2 h2 _ =>
  let typeDelta : Int := (t1.toNat : Int) - (t2.toNat : Int)
  if typeDelta ≠ 0 then decide (typeDelta < 0)
  else
    match t1 with
    | .nullValue => false
    | .intValue => decide (intOf h1 < intOf h2)
    | .uintValue => decide (uintOf h1 < uintOf h2)
    | .realValue => DReal.ltB (realOf h1) (realOf h2)
    | .booleanValue => boolLtB (boolOf h1) (boolOf h2)
    | .stringValue => strOptLt (strOf h1) (strOf h2)
    | .arrayValue | .objectValue =>
      match h1, h2 with
      | .hmap m1, .hmap m2 =>
        let d := int32OfSizeDelta m1.length m2.length
        if d ≠ 0 then decide (d < 0) else entriesLexLt m1 m2
      | _, _ => false
termination_by a b => sizeOf a + sizeOf b
decreasing_by all_goals (simp_wf; omega)

/-- `std::map::operator<`: `std::lexicographical_compare` over the entry pairs,
each pair compared by `pair::operator<` (key first, mapped value on key
equivalence). -/
def entriesLexLt : List (CZString × Value) → List (CZString × Value) → Bool
| _, [] => false
| [], _ :: _ => true
| (k1, v1) :: r1, (k2, v2) :: r2 =>
  if CZString.lt k1 k2 then true
  else if CZString.lt k2 k1 then false
  else if Value.vlt v1 v2 then true
  else if Value.vlt v2 v1 then false
  else entriesLexLt r1 r2
termination_by l1 l2 => sizeOf l1 + sizeOf l2
decreasing_by all_goals (simp_wf; omega)
end

mutual
/-- `Value::operator==` (part_002, lines 350-374): distinct tags are unequal;
equal tags compare the payload; Array/Object compare store size then entries
(`std::map::operator==`, pairwise `CZString::operator==` and
`Value::operator==`). -/
def Value.veq : Value → Value → Bool
| .mk t1 h1 _, .mk t2 h2 _ =>
  if t1 ≠ t2 then false
  else
    match t1 with
    | .nullValue => true
    | .intValue => decide (intOf h1 = intOf h2)
    | .uintValue => decide (uintOf h1 = uintOf h2)
    | .realValue => DReal.eqB (realOf h1) (realOf h2)
    | .booleanValue => boolOf h1 == boolOf h2
    | .stringValue => strOptEq (strOf h1) (strOf h2)
    | .arrayValue | .objectValue =>
      match h1, h2 with
      | .hmap m1, .hmap m2 => decide (m1.length = m2.length) && entriesEq m1 m2
      | _, _ => false

/-- `std::map::operator==`: pairwise equality of the entry sequences. -/
def entriesEq : List (CZString × Value) → List (CZString × Value) → Bool
| [], [] => true
| (k1, v1) :: r1, (k2, v2) :: r2 =>
  CZString.eqOp k1 k2 && Value.veq v1 v2 && entriesEq r1 r2
| _, _ => false
end

namespace Value

/-- `Value::operator<=` (part_002, lines 338-340): `!(other < *this)`. -/
def vle (a b : Value) : Bool := !(vlt b a)

/-- `Value::operator>=` (part_002, lines 342-344): `!(*this < other)`. -/
def vge (a b : Value) : Bool := !(vlt a b)

/-- `Value::operator>` (part_002, lines 346-348): `other < *this`. -/
def vgt (a b : Value) : Bool := vlt b a

/-- `Value::operator!=` (part_002, lines 376-378): `!(*this == other)`. -/
def vne (a b : Value) : Bool := !(veq a b)

/-- `Value::compare` (part_002, lines 299-305). -/
def compare (a b : Value) : Int :=
if vlt a b then -1 else if vlt b a then 1 else 0

end Value

/-- `std::map::find(key)`: returns the element whose key is equivalent to `key`
under the comparator (neither orders before the other), if any. -/
def mapFind : ObjectValues → CZString → Option Value
| [], _ => none
| (k0, v0) :: r, k => if CZString.equiv k0 k then some v0 else mapFind r k

/-- `std::map::emplace(key, value)`: no-op if an equivalent key is present,
otherwise insert at the comparator-sorted position. -/
def mapEmplace : ObjectValues → CZString → Value → ObjectValues
| [], k, v => [(k, v)]
| (k0, v0) :: r, k, v =>
  if CZString.equiv k0 k then (k0, v0) :: r
  else if CZString.lt k k0 then (k, v) :: (k0, v0) :: r
  else (k0, v0) :: mapEmplace r k v

/-- Copy-assignment (`Value::operator=(const Value&)`) into the stored value of
the element whose key is equivalent to `k` — the effect of
`map->...->second = x` through the reference `operator[]` returns. -/
def mapAssign : ObjectValues → CZString → Value → ObjectValues
| [], _, _ => []
| (k0, v0) :: r, k, x =>
  if CZString.equiv k0 k then (k0, Value.copyAssign v0 x) :: r
  else (k0, v0) :: mapAssign r k x

/-- `std::map::erase(key)`: removes the element with an equivalent key, if
any. -/
def mapErase : ObjectValues → CZString → ObjectValues
| [], _ => []
| (k0, v0) :: r, k => if CZString.equiv k0 k then r else (k0, v0) :: mapErase r k

/-- Equivalence of a stored key with a raw `std::string_view` under the
heterogeneous comparator overloads (part_001, lines 203-209): the view of the
key's bytes equals the looked-up bytes.  An Index key (null `cstr_`) makes the
source call `strlen(nullptr)` — undefined behaviour, reachable only by probing
an array store by name; modelled as a mismatch. -/
def svEquiv (k : CZString) (s : CStr) : Bool :=
match k.cstr_ with
| some t => decide (t = s)
| none => false

/-- Transparent `std::map::find` keyed by a `std::string_view`. -/
def svFind : ObjectValues → CStr → Option Value
| [], _ => none
| (k0, v0) :: r, s => if svEquiv k0 s then some v0 else svFind r s

/-- Copy-assignment into the stored value found by `std::string_view`
equivalence (see `mapAssign`). -/
def svAssign : ObjectValues → CStr → Value → ObjectValues
| [], _, _ => []
| (k0, v0) :: r, s, x =>
  if svEquiv k0 s then (k0, Value.copyAssign v0 x) :: r
  else (k0, v0) :: svAssign r s x

namespace Value

/-- `Value::size` (part_002, lines 644-666): scalars are size 0; an Array's
size is the last stored key's index plus one (`ArrayIndex` arithmetic, modulo
`2^32`); an Object's size is the store's cardinality. -/
def size (v : Value) : Nat :=
match v.type_ with
| .arrayValue =>
  match (mapOf v.holder).getLast? with
  | some (k, _) => (k.index_ + 1) % 2 ^ 32
  | none => 0
| .objectValue => (mapOf v.holder).length
| _ => 0

/-- `Value::isValidIndex` (part_002, lines 846-848): `index < size()`. -/
def isValidIndex (v : Value) (index : Nat) : Bool := decide (index < v.size)

/-- `Value::isNull` (part_002, lines 881-883). -/
def isNull (v : Value) : Bool := decide (v.type_ = .nullValue)

/-- `Value::isArray` (part_002, lines 913-915): true for `nullValue` too. -/
def isArray (v : Value) : Bool :=
decide (v.type_ = .nullValue) || decide (v.type_ = .arrayValue)

/-- `Value::isObject` (part_002, lines 917-919): true for `nullValue` too. -/
def isObject (v : Value) : Bool :=
decide (v.type_ = .nullValue) || decide (v.type_ = .objectValue)

/-- `Value::clear` (part_002, lines 679-690): empties the store of an
Array/Object, no-op otherwise (precondition assertion aside). -/
def clear (v : Value) : Value :=
match v.type_ with
| .arrayValue | .objectValue => .mk v.type_ (.hmap []) v.allocated_
| _ => v

/-- Post-state of `Value::operator[](ArrayIndex)` (part_002, lines 793-803): a
Null value is first promoted via `*this = Value(arrayValue)`; a missing entry
is inserted as `emplace(index, null)` (key from `ArrayIndex`, stored value a
copy of the `null` sentinel). -/
def atIndexPost (v : Value) (index : Nat) : Value :=
let v' := if v.type_ = .nullValue then copyAssign v (ctorType .arrayValue) else v
match mapFind (mapOf v'.holder) (CZString.ofIndex index) with
| some _ => v'
| none =>
  .mk v'.type_
    (.hmap (mapEmplace (mapOf v'.holder) (CZString.ofIndex index) (copyCtor nullSentinel)))
    v'.allocated_

/-- `(*this)[index] = x`: `operator[](ArrayIndex)` followed by copy-assignment
through the returned reference. -/
def setIndex (v : Value) (index : Nat) (x : Value) : Value :=
let v' := atIndexPost v index
.mk v'.type_ (.hmap (mapAssign (mapOf v'.holder) (CZString.ofIndex index) x)) v'.allocated_

/-- `Value::append` (part_002, lines 850-852): `(*this)[size()] = value`. -/
def append (v x : Value) : Value := v.setIndex v.size x

/-- `Value::tryGet(ArrayIndex)` (part_002, lines 749-759): `none` on a Null
value, otherwise a `find` in the store. -/
def tryGetIndex (v : Value) (index : Nat) : Option Value :=
if v.type_ = .nullValue then none
else mapFind (mapOf v.holder) (CZString.ofIndex index)

/-- `Value::tryGet(std::string_view)` (part_002, lines 765-775). -/
def tryGetKeySV (v : Value) (key : CStr) : Option Value :=
if v.type_ = .nullValue then none
else svFind (mapOf v.holder) key

/-- Post-state of `Value::operator[](std::string_view)` (part_002, lines
805-815): Null is promoted via `*this = Value(objectValue)`; a missing entry is
inserted as `emplace(key, null)` (key through `CZString(std::string_view)`,
policy `duplicate`). -/
def atKeyPost (v : Value) (key : CStr) : Value :=
let v' := if v.type_ = .nullValue then copyAssign v (ctorType .objectValue) else v
match svFind (mapOf v'.holder) key with
| some _ => v'
| none =>
  .mk v'.type_
    (.hmap (mapEmplace (mapOf v'.holder) (CZString.ofSV key) (copyCtor nullSentinel)))
    v'.allocated_

/-- `(*this)[key] = x` for a `std::string_view` key. -/
def setKey (v : Value) (key : CStr) (x : Value) : Value :=
let v' := atKeyPost v key
.mk v'.type_ (.hmap (svAssign (mapOf v'.holder) key x)) v'.allocated_

/-- The inner loop of `Value::resize` when shrinking (part_002, lines 702-704):
`for (index = newSize; index < oldSize; ++index) map_->erase(index);`, phrased
by the number of remaining iterations (`count = oldSize - index`, which the
loop header fixes at `oldSize - newSize`). -/
def eraseLoop (m : ObjectValues) (index : Nat) : Nat → ObjectValues
| 0 => m
| count + 1 => eraseLoop (mapErase m (CZString.ofIndex index)) (index + 1) count

/-- `Value::resize` (part_002, lines 692-707): Null is promoted to an empty
Array; `resize(0)` clears; growing touches index `newSize - 1` through
`operator[]`; shrinking erases each index from `newSize` up to the old size.
(The source then asserts `size() == newSize`.) -/
def resize (v : Value) (newSize : Nat) : Value :=
let v' := if v.type_ = .nullValue then copyAssign v (ctorType .arrayValue) else v
let oldSize := v'.size
if newSize = 0 then v'.clear
else if newSize > oldSize then v'.atIndexPost (newSize - 1)
else .mk v'.type_ (.hmap (eraseLoop (mapOf v'.holder) newSize (oldSize - newSize))) v'.allocated_

/-- `Value::isConvertibleTo` (part_002, lines 614-641), translated clause by
clause. -/
def isConvertibleTo (v : Value) (other : ValueType) : Bool :=
match v.type_ with
| .nullValue => true
| .intValue =>
  (decide (other = .nullValue) && decide (intOf v.holder = 0)) ||
  decide (other = .intValue) ||
  (decide (other = .uintValue) && decide (intOf v.holder ≥ 0)) ||
  decide (other = .realValue) || decide (other = .stringValue) ||
  decide (other = .booleanValue)
| .uintValue =>
  (decide (other = .nullValue) && decide (uintOf v.holder = 0)) ||
  (decide (other = .intValue) && decide ((uintOf v.holder : Int) ≤ maxInt)) ||
  decide (other = .uintValue) ||
  decide (other = .realValue) || decide (other = .stringValue) ||
  decide (other = .booleanValue)
| .realValue =>
  (decide (other = .nullValue) && DReal.eqB (realOf v.holder) (.fin 0)) ||
  (decide (other = .intValue) && DReal.leB (.fin (minInt : ℚ)) (realOf v.holder) &&
    DReal.leB (realOf v.holder) (.fin (maxInt : ℚ))) ||
  (decide (other = .uintValue) && DReal.leB (.fin 0) (realOf v.holder) &&
    DReal.leB (realOf v.holder) (.fin (maxUInt : ℚ))) ||
  decide (other = .realValue) || decide (other = .stringValue) ||
  decide (other = .booleanValue)
| .booleanValue =>
  (decide (other = .nullValue) && decide (boolOf v.holder = false)) ||
  decide (other = .intValue) || decide (other = .uintValue) ||
  decide (other = .realValue) || decide (other = .stringValue) ||
  decide (other = .booleanValue)
| .stringValue =>
  decide (other = .stringValue) ||
  (decide (other = .nullValue) &&
    (match strOf v.holder with
     | none => true
     | some s => decide (s = [])))
| .arrayValue =>
  decide (other = .arrayValue) ||
  (decide (other = .nullValue) && (mapOf v.holder).isEmpty)
| .objectValue =>
  decide (other = .objectValue) ||
  (decide (other = .nullValue) && (mapOf v.holder).isEmpty)

/-- Truncation toward zero, the semantics of the C cast `Int(double)` for an
in-range argument. -/
def truncQ (q : ℚ) : Int := if q ≥ 0 then ⌊q⌋ else ⌈q⌉

/-- `Value::asInt` (part_002, lines 407-432), in the checked build
(`JSONCPP_ENABLE_ASSERTS`): `JSONCPP_ASSERT_MESSAGE` throws a
`std::runtime_error` carrying the given message when its condition fails, and
`JSONCPP_FAIL_MESSAGE` throws unconditionally; both are modelled as `.error`
with the exact message.  A Null value returns the caller's default. -/
def asInt (v : Value) (defaultValue : Int) : Except String Int :=
match v.type_ with
| .nullValue => .ok defaultValue
| .intValue =>
  if minInt ≤ intOf v.holder ∧ intOf v.holder ≤ maxInt then .ok (intOf v.holder)
  else .error "unsigned integer out of signed int range"
| .uintValue =>
  if (uintOf v.holder : Int) ≤ maxInt then .ok (uintOf v.holder : Int)
  else .error "unsigned integer out of signed int range"
| .realValue =>
  if DReal.leB (.fin (minInt : ℚ)) (realOf v.holder) &&
      DReal.leB (realOf v.holder) (.fin (maxInt : ℚ)) then
    .ok (truncQ (DReal.toQ (realOf v.holder)))
  else .error "Real out of signed integer range"
| .booleanValue => .ok (if boolOf v.holder then 1 else 0)
| .stringValue | .arrayValue | .objectValue => .error "Type is not convertible to int"

end Value

/-- `Json::PathArgument` (part_001, lines 417-434): a navigation step of kind
none, index or key. -/
inductive PathArgument where
| noneArg : PathArgument
| indexArg : Nat → PathArgument
| keyArg : CStr → PathArgument
deriving DecidableEq

/-- `PathArgument::Kind` (part_001, lines 418-422). -/
inductive PathKind where
| kindNone
| kindIndex
| kindKey
deriving DecidableEq

/-- The `kind_` member of a `PathArgument`. -/
def PathArgument.kind : PathArgument → PathKind
| .noneArg => .kindNone
| .indexArg _ => .kindIndex
| .keyArg _ => .kindKey

/-- Dropping a prefix never lengthens a list (termination helper for the path
parser). -/
theorem dropWhile_len_le {α : Type} (p : α → Bool) :
    ∀ l : List α, (l.dropWhile p).length ≤ l.length := by
intro l
induction l with
| nil => simp [List.dropWhile]
| cons x xs ih =>
  by_cases h : p x = true
  · simp only [List.dropWhile, h]
    simp
    omega
  · simp only [List.dropWhile, h]
    simp

/-- Termination helper: dropping a prefix yields a list shorter than the
original plus one. -/
theorem dropWhile_len_lt_succ {α : Type} (p : α → Bool) (l : List α) :
    (l.dropWhile p).length < l.length + 1 :=
Nat.lt_succ_of_le (dropWhile_len_le p l)

namespace Path

/-- `Path::addPathInArg` (part_002, lines 1039-1047).  The source never
advances `itInArg` (neither here nor in `makePath`), so every placeholder is
resolved against the first supplied argument; a missing or kind-mismatched
argument silently drops the step. -/
def addPathInArg (inArgs : List PathArgument) (kind : PathKind)
    (args : List PathArgument) : List PathArgument :=
match inArgs with
| [] => args
| a :: _ => if a.kind = kind then args ++ [a] else args

/-- Is the byte an ASCII decimal digit (`*current >= '0' && *current <= '9'`)? -/
def isDigitB (b : Nat) : Bool := decide (48 ≤ b) && decide (b ≤ 57)

/-- Bytes a name step stops at: `strchr("[.", *current)` matches `'['` (91),
`'.'` (46), and also the NUL terminator (0). -/
def nameStop (b : Nat) : Bool := decide (b = 91) || decide (b = 46) || decide (b = 0)

/-- The parse loop of `Path::makePath` (part_002, lines 1008-1037), over the
path's bytes (`'['` 91, `']'` 93, `'%'` 37, `'.'` 46).  Notable translations of
the source's exact behaviour:
* `"[%"` records the Index placeholder but does not consume the `'%'`; the
  following `*current++ != ']'` check therefore sees `'%'`, records
  `invalidPath` (a no-op) and skips only the `'%'` — a subsequent `']'` is then
  parsed as a one-byte name step;
* a `'['` at the end of the string makes `*current` read the NUL terminator of
  `c_str()`, so the digit loop is empty and index 0 is pushed;
* after a digit literal one byte is consumed whether or not it is `']'`;
* an embedded NUL byte makes the source's name scan stop without advancing
  (`strchr` matches the terminator), looping forever; unreachable for NUL-free
  paths, modelled as returning the steps parsed so far. -/
def makePathAux (path : List Nat) (inArgs : List PathArgument)
    (args : List PathArgument) : List PathArgument :=
match path with
| [] => args
| c :: rest =>
  if c = 91 then
    match rest with
    | [] => args ++ [PathArgument.indexArg 0]
    | d :: rest2 =>
      if d = 37 then
        makePathAux rest2 inArgs (addPathInArg inArgs .kindIndex args)
      else
        let digits := (d :: rest2).takeWhile isDigitB
        let index := digits.foldl (fun n b => (n * 10 + (b - 48)) % 2 ^ 32) 0
        let after := (d :: rest2).dropWhile isDigitB
        let args' := args ++ [PathArgument.indexArg index]
        if after.isEmpty then args'
        else makePathAux after.tail inArgs args'
  else if c = 37 then
    makePathAux rest inArgs (addPathInArg inArgs .kindKey args)
  else if c = 46 then
    makePathAux rest inArgs args
  else if c = 0 then
    args
  else
    makePathAux (rest.dropWhile (fun b => !nameStop b)) inArgs
      (args ++ [PathArgument.keyArg (c :: rest.takeWhile (fun b => !nameStop b))])
termination_by path.length
decreasing_by
all_goals simp_wf
all_goals first
| omega
| (have h := dropWhile_len_le isDigitB (d :: rest2)
   simp at h
   omega)
| exact dropWhile_len_lt_succ (fun b => !nameStop b) _

/-- `Path::makePath` (part_002, lines 1008-1037): parse from an empty step
list. -/
def makePath (path : List Nat) (inArgs : List PathArgument) : List PathArgument :=
makePathAux path inArgs []

/-- `Path::Path(path, a1..a5)` (part_002, lines 996-1006): five arguments are
always passed (defaulted ones have kind `kindNone`). -/
def ctor (path : List Nat) (a1 a2 a3 a4 a5 : PathArgument) : List PathArgument :=
makePath path [a1, a2, a3, a4, a5]

/-- `Path::resolve(const Value&, const Value&)` (part_002, lines 1082-1106),
the defaulted variant, over the compiled steps.  For an Index step the guard is
`!node->isArray() || node->isValidIndex(arg.index_)` — exactly as written in
the source: the walk returns the default when the index IS within bounds, and
proceeds (with the shared null sentinel standing in for a `tryGet` miss) when
it is not.  For a Key step a non-Object node or a missing member returns the
default (the `node == &Value::null` pointer test recognises exactly the
`tryGet` miss, since tree nodes are never the sentinel's address).  The
function returns `Value` by value, so the chosen node or default is
copy-constructed once on return. -/
def resolveDefault : List PathArgument → Value → Value → Value
| [], node, _ => Value.copyCtor node
| arg :: rest, node, defaultValue =>
  match arg with
  | .indexArg i =>
    if !node.isArray || node.isValidIndex i then Value.copyCtor defaultValue
    else resolveDefault rest ((node.tryGetIndex i).getD Value.nullSentinel) defaultValue
  | .keyArg s =>
    if !node.isObject then Value.copyCtor defaultValue
    else
      match node.tryGetKeySV s with
      | none => Value.copyCtor defaultValue
      | some v => resolveDefault rest v defaultValue
  | .noneArg => resolveDefault rest node defaultValue

end Path

mutual
/-- Well-formedness of a modelled value: the discriminant matches the union
member last written, recursively.  Every value the C++ API can construct
satisfies this; it rules out the junk states expressible only in the model
(where a union reader would fall back to its default). -/
def Value.wf : Value → Bool
| .mk t h _ =>
  match t, h with
  | .nullValue, .hnull => true
  | .intValue, .hint _ => true
  | .uintValue, .huint _ => true
  | .realValue, .hreal _ => true
  | .booleanValue, .hbool _ => true
  | .stringValue, .hstring _ => true
  | .arrayValue, .hmap m => entriesWf m
  | .objectValue, .hmap m => entriesWf m
  | _, _ => false

/-- Well-formedness of every stored value of an `ObjectValues` store. -/
def entriesWf : List (CZString × Value) → Bool
| [] => true
| (_, v) :: r => Value.wf v && entriesWf r
end

mutual
/-- No NaN Real payload anywhere in the tree.  IEEE `==` makes NaN unequal
even to a bit-identical copy of itself, so tree-level content-equality
statements exempt NaN. -/
def Value.noNaNDeep : Value → Bool
| .mk _ h _ =>
  match h with
  | .hreal r => !decide (r = DReal.nan)
  | .hmap m => entriesNoNaN m
  | _ => true

/-- `noNaNDeep` for every stored value of a store. -/
def entriesNoNaN : List (CZString × Value) → Bool
| [] => true
| (_, v) :: r => Value.noNaNDeep v && entriesNoNaN r
end

/-- Is the tag a numeric one (Int, UInt, Real)? -/
def numericTag (t : ValueType) : Bool :=
decide (t = .intValue) || decide (t = .uintValue) || decide (t = .realValue)

/-- The "current value equals its type's zero / is empty" condition under which
a value converts to Null: spec-side reading, per source tag. -/
def isZeroOrEmpty (v : Value) : Bool :=
match v.type_ with
| .nullValue => true
| .intValue => decide (intOf v.holder = 0)
| .uintValue => decide (uintOf v.holder = 0)
| .realValue => DReal.eqB (realOf v.holder) (.fin 0)
| .booleanValue => decide (boolOf v.holder = false)
| .stringValue =>
  match strOf v.holder with
  | none => true
  | some s => decide (s = [])
| .arrayValue | .objectValue => (mapOf v.holder).isEmpty

/-- Spec-side characterization of `isConvertibleTo`, organized by target tag
(the amended form of claim C5): Null converts to everything; conversion to Null
requires the zero/empty value; numeric-to-numeric conversion additionally
requires the value to be representable in the target's range (Int→UInt needs
value ≥ 0; UInt→Int needs value ≤ maxInt; Real→Int needs minInt ≤ value ≤
maxInt; Real→UInt needs 0 ≤ value ≤ maxUInt); numerics and Bool convert to
Real, String and Bool freely; String converts only to String (and empty to
Null); Array/Object convert only to themselves (and empty to Null). -/
def convertibleSpec (v : Value) (other : ValueType) : Bool :=
match other with
| .nullValue => isZeroOrEmpty v
| .intValue =>
  decide (v.type_ = .nullValue) || decide (v.type_ = .intValue) ||
  decide (v.type_ = .booleanValue) ||
  (decide (v.type_ = .uintValue) && decide ((uintOf v.holder : Int) ≤ maxInt)) ||
  (decide (v.type_ = .realValue) && DReal.leB (.fin (minInt : ℚ)) (realOf v.holder) &&
    DReal.leB (realOf v.holder) (.fin (maxInt : ℚ)))
| .uintValue =>
  decide (v.type_ = .nullValue) || decide (v.type_ = .uintValue) ||
  decide (v.type_ = .booleanValue) ||
  (decide (v.type_ = .intValue) && decide (0 ≤ intOf v.holder)) ||
  (decide (v.type_ = .realValue) && DReal.leB (.fin 0) (realOf v.holder) &&
    DReal.leB (realOf v.holder) (.fin (maxUInt : ℚ)))
| .realValue =>
  decide (v.type_ = .nullValue) || numericTag v.type_ || decide (v.type_ = .booleanValue)
| .booleanValue =>
  decide (v.type_ = .nullValue) || numericTag v.type_ || decide (v.type_ = .booleanValue)
| .stringValue =>
  decide (v.type_ = .nullValue) || numericTag v.type_ ||
  decide (v.type_ = .booleanValue) || decide (v.type_ = .stringValue)
| .arrayValue => decide (v.type_ = .nullValue) || decide (v.type_ = .arrayValue)
| .objectValue => decide (v.type_ = .nullValue) || decide (v.type_ = .objectValue)

/-- A scalar-tagged node: any tag other than Array and Object (Null, Int, UInt,
Real, String, Bool). -/
def Value.scalarTag (v : Value) : Prop :=
v.type_ ≠ .arrayValue ∧ v.type_ ≠ .objectValue

instance (v : Value) : Decidable v.scalarTag :=
inferInstanceAs (Decidable (_ ∧ _))

/-- The node's Real payload is not NaN.  For non-Real tags this is vacuously
true (the union reader's fallback is the finite `0.0` the zero-initialised
union holds). -/
def Value.notNaN (v : Value) : Prop := ValueHolder.realOf v.holder ≠ DReal.nan

instance (v : Value) : Decidable v.notNaN :=
inferInstanceAs (Decidable (_ ≠ _))

/-!  Theorems.  First, order-theoretic facts about `strcmp`. -/

theorem strcmp_self : ∀ a : CStr, strcmp a a = 0 := by
intro a
induction a with
| nil => rfl
| cons x xs ih => simp [strcmp, ih]

theorem strcmp_eq_zero_iff : ∀ a b : CStr, strcmp a b = 0 ↔ a = b := by
intro a
induction a with
| nil =>
  intro b
  cases b <;> simp [strcmp]
| cons x xs ih =>
  intro b
  cases b with
  | nil => simp [strcmp]
  | cons y ys =>
    by_cases hxy : x < y
    · simp only [strcmp, if_pos hxy]
      constructor
      · intro h; omega
      · intro h
        injection h with h1 _
        omega
    · by_cases hyx : y < x
      · simp only [strcmp, if_neg hxy, if_pos hyx]
        constructor
        · intro h; omega
        · intro h
          injection h with h1 _
          omega
      · have hxyeq : x = y := by omega
        subst hxyeq
        simp [strcmp, ih, List.cons.injEq]

theorem strcmp_antisymm : ∀ a b : CStr, strcmp b a = -strcmp a b := by
intro a
induction a with
| nil => intro b; cases b <;> simp [strcmp]
| cons x xs ih =>
  intro b
  cases b with
  | nil => simp [strcmp]
  | cons y ys =>
    by_cases hxy : x < y
    · have : ¬ y < x := by omega
      simp [strcmp, hxy, this]
    · by_cases hyx : y < x
      · simp [strcmp, hxy, hyx]
      · simp [strcmp, hxy, hyx, ih]

theorem strcmp_lt_trans :
    ∀ a b c : CStr, strcmp a b < 0 → strcmp b c < 0 → strcmp a c < 0 := by
intro a
induction a with
| nil =>
  intro b c hab hbc
  cases b with
  | nil => simp [strcmp] at hab
  | cons y ys =>
    cases c with
    | nil => simp [strcmp] at hbc
    | cons z zs => simp [strcmp]
| cons x xs ih =>
  intro b c hab hbc
  cases b with
  | nil => simp [strcmp] at hab
  | cons y ys =>
    cases c with
    | nil => simp [strcmp] at hbc
    | cons z zs =>
      simp only [strcmp] at hab hbc ⊢
      by_cases hxy : x < y
      · -- x < y; combined with y ≤ z this gives x < z
        by_cases hyz : y < z
        · have : x < z := by omega
          simp [this]
        · by_cases hzy : z < y
          · simp [hxy, hyz, hzy] at hbc
          · have : x < z := by omega
            simp [this]
      · by_cases hyx : y < x
        · simp [hxy, hyx] at hab
        · have hxyeq : x = y := by omega
          subst hxyeq
          simp only [if_neg hxy, if_neg hyx] at hab
          by_cases hyz : x < z
          · simp [hyz]
          · by_cases hzy : z < x
            · simp [hyz, hzy] at hbc
            · simp only [if_neg hyz, if_neg hzy] at hbc ⊢
              exact ih ys zs hab hbc

theorem strcmp_cases (a b : CStr) :
    strcmp a b < 0 ∨ strcmp a b = 0 ∨ 0 < strcmp a b := by
omega

/-- IEEE `<` is irreflexive (even at NaN, where every comparison is false). -/
theorem dreal_lt_irrefl (r : DReal) : DReal.ltB r r = false := by
cases r <;> simp [DReal.ltB]

/-- IEEE `<` is asymmetric (a true `<` forces both operands non-NaN). -/
theorem dreal_lt_asymm (r1 r2 : DReal) (h : DReal.ltB r1 r2 = true) :
    DReal.ltB r2 r1 = false := by
revert h
cases r1 <;> cases r2 <;> simp [DReal.ltB]
intro h
linarith

/-- IEEE `<` is transitive. -/
theorem dreal_lt_trans (r1 r2 r3 : DReal) (h1 : DReal.ltB r1 r2 = true)
    (h2 : DReal.ltB r2 r3 = true) : DReal.ltB r1 r3 = true := by
revert h1 h2
cases r1 <;> cases r2 <;> cases r3 <;> simp [DReal.ltB]
intro h1 h2
linarith

/-- Away from NaN, IEEE `<` and `==` are trichotomous. -/
theorem dreal_total (r1 r2 : DReal) (h1 : r1 ≠ .nan) (h2 : r2 ≠ .nan) :
    DReal.ltB r1 r2 = true ∨ DReal.ltB r2 r1 = true ∨ DReal.eqB r1 r2 = true := by
cases r1 <;> cases r2 <;> simp_all [DReal.ltB, DReal.eqB]
rename_i a b
rcases lt_trichotomy a b with h | h | h
· exact Or.inl h
· exact Or.inr (Or.inr h)
· exact Or.inr (Or.inl h)

/-- Away from NaN, IEEE `==` holds exactly when neither operand is `<` the
other. -/
theorem dreal_eq_iff (r1 r2 : DReal) (h1 : r1 ≠ .nan) (h2 : r2 ≠ .nan) :
    DReal.eqB r1 r2 = (!DReal.ltB r1 r2 && !DReal.ltB r2 r1) := by
cases r1 <;> cases r2 <;> simp_all [DReal.ltB, DReal.eqB]
rename_i a b
rcases lt_trichotomy a b with h | h | h
· simp [h, ne_of_lt h, not_lt_of_gt h]
· simp [h]
· simp [h, (ne_of_lt h).symm, not_lt_of_gt h]

/-- C1: the claim says two Index keys compare by their numeric index values
(equal exactly when the indices are equal, less-than exactly when numerically
smaller).  The code drops the index comparison entirely: for two Index keys
both `cstr_` pointers are null, so `operator==` answers `true` (pointer
equality of two nulls) and `operator<` answers `false`, whatever the indices —
here witnessed at indices 0 and 1.  The Name-key clauses of the claim do hold
(byte-content comparison, shown at "a" vs "b", and Index-vs-Name inequality),
but the Index clause is contradicted, which in turn collapses every array
store: this contradicts the code's own `assert(size() == newSize)` in
`Value::resize` and the documented `size()` invariant "highest index + 1". -/
theorem c1_index_key_comparison_bug :
    CZString.eqOp (CZString.ofIndex 0) (CZString.ofIndex 1) = true
    ∧ CZString.lt (CZString.ofIndex 0) (CZString.ofIndex 1) = false
    ∧ CZString.lt (CZString.ofCStrPolicy [97] noDuplication)
        (CZString.ofCStrPolicy [98] duplicate) = true
    ∧ CZString.eqOp (CZString.ofCStrPolicy [97] noDuplication)
        (CZString.ofCStrPolicy [97] duplicate) = true
    ∧ CZString.eqOp (CZString.ofIndex 0) (CZString.ofCStrPolicy [97] duplicate) = false := by
decide

/-- C2: the claim says appending to an Array of size n stores the value at
index n, makes `size()` return n + 1 and leaves lower indices unchanged.
Because all Index keys are equivalent under the store's comparator (see C1),
the second `append` finds the single existing entry instead of inserting a new
one: after appending 7 and then 8 to a fresh value, `size()` is still 1 and the
entry readable at index 0 now holds 8 — the previous element was overwritten
and the size never reached 2. -/
theorem c2_append_collapse :
    (Value.append Value.ctorDefault (Value.ofInt 7)).size = 1
    ∧ Value.veq
        (((Value.append Value.ctorDefault (Value.ofInt 7)).tryGetIndex 0).getD
          Value.ctorDefault)
        (Value.ofInt 7) = true
    ∧ (Value.append (Value.append Value.ctorDefault (Value.ofInt 7)) (Value.ofInt 8)).size = 1
    ∧ Value.veq
        (((Value.append (Value.append Value.ctorDefault (Value.ofInt 7))
            (Value.ofInt 8)).tryGetIndex 0).getD Value.ctorDefault)
        (Value.ofInt 8) = true := by
decide

/-- C3: `resize(5)` on a Null value does produce an Array whose `size()` is 5
with every probed entry reading back Null (the single stored entry, keyed with
index 4, answers every lookup).  But shrinking is broken: `resize(2)` erases
the single stored entry on its first loop iteration (all Index keys being
equivalent, see C1), so `size()` becomes 0 instead of the claimed 2 — the
source's own `assert(size() == newSize)` fails on this input. -/
theorem c3_resize_shrink_bug :
    (Value.resize Value.ctorDefault 5).type_ = ValueType.arrayValue
    ∧ (Value.resize Value.ctorDefault 5).size = 5
    ∧ (∀ i : Fin 5,
        (((Value.resize Value.ctorDefault 5).tryGetIndex i.val).getD
          (Value.ofBool true)).isNull = true)
    ∧ (Value.resize (Value.resize Value.ctorDefault 5) 2).size = 0 := by
refine ⟨rfl, rfl, ?_, rfl⟩
decide

/-- C4: the claim says the defaulted `resolve` returns `root["a"][2]` for the
path `".a[%]"` with Index argument 2 when that element is present.  On a root
whose member "a" (byte 97) is an array where index 2 is present and holds 3,
the code instead returns the caller's default (99): the Index-step guard
`!node->isArray() || node->isValidIndex(...)` lacks a negation, so an in-bounds
index returns the default.  (Independently, the parser never consumes the `'%'`
of `"[%]"`, records `invalidPath` and appends a spurious Name step for `"]"`,
as the first conjunct shows.) -/
theorem c4_resolve_default_bug :
    Path.ctor [46, 97, 91, 37, 93] (PathArgument.indexArg 2)
        .noneArg .noneArg .noneArg .noneArg
      = [PathArgument.keyArg [97], PathArgument.indexArg 2, PathArgument.keyArg [93]]
    ∧ (((Value.setKey Value.ctorDefault [97]
          (Value.setIndex Value.ctorDefault 2 (Value.ofInt 3))).tryGetKeySV
        [97]).getD Value.ctorDefault).isValidIndex 2 = true
    ∧ Value.veq
        (((((Value.setKey Value.ctorDefault [97]
                (Value.setIndex Value.ctorDefault 2 (Value.ofInt 3))).tryGetKeySV
              [97]).getD Value.ctorDefault).tryGetIndex 2).getD Value.ctorDefault)
        (Value.ofInt 3) = true
    ∧ Path.resolveDefault
        (Path.ctor [46, 97, 91, 37, 93] (PathArgument.indexArg 2)
          .noneArg .noneArg .noneArg .noneArg)
        (Value.setKey Value.ctorDefault [97]
          (Value.setIndex Value.ctorDefault 2 (Value.ofInt 3)))
        (Value.ofInt 99)
      = Value.ofInt 99 := by
have hsteps : Path.ctor [46, 97, 91, 37, 93] (PathArgument.indexArg 2)
    .noneArg .noneArg .noneArg .noneArg
    = [PathArgument.keyArg [97], PathArgument.indexArg 2, PathArgument.keyArg [93]] := by
  simp [Path.ctor, Path.makePath, Path.makePathAux, Path.addPathInArg,
    Path.isDigitB, Path.nameStop, PathArgument.kind, List.takeWhile, List.dropWhile]
refine ⟨hsteps, by decide, by decide, ?_⟩
rw [hsteps]
rfl

/-- C10: `isArray()` is true exactly on Null and Array tags, `isObject()`
exactly on Null and Object tags, and `isNull()` exactly on the Null tag; hence
a freshly default-constructed (Null) value is simultaneously reported as null,
as an array and as an object. -/
theorem c10_type_predicates (v : Value) :
    (Value.isArray v = true ↔ (v.type_ = .nullValue ∨ v.type_ = .arrayValue))
    ∧ (Value.isObject v = true ↔ (v.type_ = .nullValue ∨ v.type_ = .objectValue))
    ∧ (Value.isNull v = true ↔ v.type_ = .nullValue)
    ∧ Value.isNull Value.ctorDefault = true
    ∧ Value.isArray Value.ctorDefault = true
    ∧ Value.isObject Value.ctorDefault = true := by
refine ⟨?_, ?_, ?_, rfl, rfl, rfl⟩ <;>
  simp [Value.isArray, Value.isObject, Value.isNull]

/-- C5 counterexample: the claim says every numeric node converts to every
other numeric tag unconditionally; the Int node holding −1 is not convertible
to UInt (the code requires the value to be ≥ 0). -/
theorem c5_counterexample :
    Value.isConvertibleTo (Value.ofInt (-1)) ValueType.uintValue = false := by
decide

/-- C5 (amended): `isConvertibleTo` behaves as claimed except that
numeric-to-numeric conversion also requires the value to be representable in
the target's range (Int→UInt iff ≥ 0; UInt→Int iff ≤ maxInt; Real→Int iff
within [minInt, maxInt]; Real→UInt iff within [0, maxUInt]); everything else —
Null to every tag, conversion to Null only for the zero/empty value, numeric
and Bool to Real/String/Bool freely, String only to String, Array/Object only
to themselves — is as the claim states, captured by `convertibleSpec`. -/
theorem c5_convertible_characterization (v : Value) (t : ValueType) :
    Value.isConvertibleTo v t = convertibleSpec v t := by
rcases v with ⟨tv, h, al⟩
cases tv <;> cases t <;>
  simp [Value.isConvertibleTo, convertibleSpec, isZeroOrEmpty, numericTag,
    Value.type_, Value.holder]

/-- C6 counterexample: move-assigning the Int node 7 into the Int node 5 leaves
the source holding the destination's previous representation (an Int node, not
Null) — swap-based move assignment refutes "the source is left as Null". -/
theorem c6_counterexample :
    ((Value.moveAssign (Value.ofInt 5) (Value.ofInt 7)).2).isNull = false
    ∧ (Value.moveAssign (Value.ofInt 5) (Value.ofInt 7)).2 = Value.ofInt 5 := by
exact ⟨rfl, rfl⟩

/-- C6 (amended): move construction transfers the tag and payload to the new
node and leaves the source as a valid Null; move assignment (for distinct
nodes) EXCHANGES tags and payloads, so the source ends holding the
destination's previous representation — Null exactly when the destination was
Null — rather than always Null; the `allocated_` flag is not transferred by
either operation (`swap` does not touch it). -/
theorem c6_move_semantics (dst src : Value) :
    (Value.moveCtor src).1.type_ = src.type_
    ∧ (Value.moveCtor src).1.holder = src.holder
    ∧ (Value.moveCtor src).1.allocated_ = false
    ∧ (Value.moveCtor src).2.isNull = true
    ∧ (Value.moveCtor src).2.holder = ValueHolder.hnull
    ∧ (Value.moveAssign dst src).1.type_ = src.type_
    ∧ (Value.moveAssign dst src).1.holder = src.holder
    ∧ (Value.moveAssign dst src).1.allocated_ = dst.allocated_
    ∧ (Value.moveAssign dst src).2.type_ = dst.type_
    ∧ (Value.moveAssign dst src).2.holder = dst.holder
    ∧ (Value.moveAssign dst src).2.allocated_ = src.allocated_
    ∧ ((Value.moveAssign dst src).2.isNull = true ↔ dst.type_ = .nullValue) := by
rcases dst with ⟨td, hd, ad⟩
rcases src with ⟨ts, hs, bs⟩
simp [Value.moveCtor, Value.moveAssign, Value.swapOp, Value.ctorDefault,
  Value.ctorType, Value.type_, Value.holder, Value.allocated_, Value.isNull]

/-- Copying a key preserves its byte content, so the copy compares equal to the
original under `CZString::operator==` (which ignores the policy). -/
theorem czCopy_eqOp (k : CZString) : CZString.eqOp (CZString.copy k) k = true := by
rcases k with ⟨c, i⟩
cases c with
| none => rfl
| some s => simp [CZString.copy, CZString.eqOp, strcmp_self]

/-- Entrywise copy preserves the store's cardinality. -/
theorem copyEntries_length (l : List (CZString × Value)) :
    (copyEntries l).length = l.length := by
induction l with
| nil => rfl
| cons p r ih =>
  cases p
  simp [copyEntries, ih]

mutual
/-- A copy-constructed well-formed value with no NaN Real payload compares
equal (`operator==`) to its original.  (NaN must be exempted: the copy is
bit-identical, but IEEE `==` declares NaN unequal even to itself.) -/
theorem copyCtor_veq_aux : ∀ v : Value, Value.wf v = true →
    Value.noNaNDeep v = true → Value.veq (Value.copyCtor v) v = true
| .mk t h al, hwf, hnn => by
  cases t with
  | nullValue => rfl
  | intValue => simp [Value.copyCtor, Value.veq]
  | uintValue => simp [Value.copyCtor, Value.veq]
  | realValue =>
    cases h with
    | hreal r =>
      have hr : r ≠ DReal.nan := by simpa [Value.noNaNDeep] using hnn
      cases r with
      | nan => exact absurd rfl hr
      | ninf => rfl
      | fin q => simp [Value.copyCtor, Value.veq, ValueHolder.realOf, DReal.eqB]
      | pinf => rfl
    | hnull => simp [Value.wf] at hwf
    | hint i => simp [Value.wf] at hwf
    | huint u => simp [Value.wf] at hwf
    | hbool b => simp [Value.wf] at hwf
    | hstring s => simp [Value.wf] at hwf
    | hmap m => simp [Value.wf] at hwf
  | booleanValue => simp [Value.copyCtor, Value.veq]
  | stringValue =>
    cases h with
    | hstring s =>
      cases s with
      | none => rfl
      | some s' => simp [Value.copyCtor, Value.veq, ValueHolder.strOf, strOptEq, strcmp_self]
    | hnull => simp [Value.wf] at hwf
    | hint i => simp [Value.wf] at hwf
    | huint u => simp [Value.wf] at hwf
    | hreal r => simp [Value.wf] at hwf
    | hbool b => simp [Value.wf] at hwf
    | hmap m => simp [Value.wf] at hwf
  | arrayValue =>
    cases h with
    | hmap m =>
      have hm : entriesWf m = true := by simpa [Value.wf] using hwf
      have hm2 : entriesNoNaN m = true := by simpa [Value.noNaNDeep] using hnn
      simp [Value.copyCtor, Value.veq, copyEntries_length, entriesEq_copy_aux m hm hm2]
    | hnull => simp [Value.wf] at hwf
    | hint i => simp [Value.wf] at hwf
    | huint u => simp [Value.wf] at hwf
    | hreal r => simp [Value.wf] at hwf
    | hbool b => simp [Value.wf] at hwf
    | hstring s => simp [Value.wf] at hwf
  | objectValue =>
    cases h with
    | hmap m =>
      have hm : entriesWf m = true := by simpa [Value.wf] using hwf
      have hm2 : entriesNoNaN m = true := by simpa [Value.noNaNDeep] using hnn
      simp [Value.copyCtor, Value.veq, copyEntries_length, entriesEq_copy_aux m hm hm2]
    | hnull => simp [Value.wf] at hwf
    | hint i => simp [Value.wf] at hwf
    | huint u => simp [Value.wf] at hwf
    | hreal r => simp [Value.wf] at hwf
    | hbool b => simp [Value.wf] at hwf
    | hstring s => simp [Value.wf] at hwf

/-- An entrywise-copied store compares equal (`std::map::operator==`) to its
original, for well-formed stored values free of NaN payloads. -/
theorem entriesEq_copy_aux : ∀ l : List (CZString × Value), entriesWf l = true →
    entriesNoNaN l = true → entriesEq (copyEntries l) l = true
| [], _, _ => rfl
| (k, v) :: r, hwf, hnn => by
  have hv : Value.wf v = true := by
    have := hwf
    simp [entriesWf, Bool.and_eq_true] at this
    exact this.1
  have hr : entriesWf r = true := by
    have := hwf
    simp [entriesWf, Bool.and_eq_true] at this
    exact this.2
  have hnv : Value.noNaNDeep v = true := by
    have := hnn
    simp [entriesNoNaN, Bool.and_eq_true] at this
    exact this.1
  have hnr : entriesNoNaN r = true := by
    have := hnn
    simp [entriesNoNaN, Bool.and_eq_true] at this
    exact this.2
  simp [copyEntries, entriesEq, czCopy_eqOp k, copyCtor_veq_aux v hv hnv,
    entriesEq_copy_aux r hr hnr]
end

/-- C7 counterexample: copying a node built from a borrowed (static-lifetime)
string yields a copy whose string payload is freshly owned
(`allocated_ = true`), not a borrow of the same external storage — the copy
constructor duplicates every non-null string regardless of the source's
`allocated_` flag. -/
theorem c7_counterexample :
    (Value.ofStaticString [97]).allocated_ = false
    ∧ (Value.copyCtor (Value.ofStaticString [97])).allocated_ = true := by
exact ⟨rfl, rfl⟩

/-- C7 (amended): copy construction deep-copies recursively — the copy compares
equal (`operator==`) to the original for every well-formed node containing no
NaN Real payload (IEEE `==` declares even a bit-identical copy of NaN unequal,
so `operator==` cannot certify equality there), and keys follow their
ownership policy (no-duplication keys stay borrowed with the same content;
duplicate-on-copy and duplicate keys come out with the `duplicate` policy and
unchanged content; Index keys are copied verbatim) — but a borrowed string
payload does NOT remain a borrow: the copy owns a fresh duplicate of any
non-null string payload (`allocated_` is true exactly then). -/
theorem c7_copy_deep (v : Value) (s : CStr) (i : Nat) (hwf : Value.wf v = true)
    (hnn : Value.noNaNDeep v = true) :
    Value.veq (Value.copyCtor v) v = true
    ∧ ((Value.copyCtor v).allocated_ = true ↔
        (v.type_ = .stringValue ∧ (strOf v.holder).isSome = true))
    ∧ CZString.copy (CZString.ofCStrPolicy s noDuplication)
        = CZString.ofCStrPolicy s noDuplication
    ∧ CZString.copy (CZString.ofCStrPolicy s duplicateOnCopy)
        = CZString.ofCStrPolicy s duplicate
    ∧ CZString.copy (CZString.ofCStrPolicy s duplicate)
        = CZString.ofCStrPolicy s duplicate
    ∧ CZString.copy (CZString.ofIndex i) = CZString.ofIndex i := by
refine ⟨copyCtor_veq_aux v hwf hnn, ?_, ?_, ?_, ?_, ?_⟩
· rcases v with ⟨t, h, al⟩
  cases t <;> cases h <;>
    try simp [Value.copyCtor, Value.allocated_, Value.type_, Value.holder, ValueHolder.strOf]
  rename_i os
  cases os <;>
    simp [Value.copyCtor, Value.allocated_, Value.type_, Value.holder, ValueHolder.strOf]
· simp [CZString.copy, CZString.ofCStrPolicy, noDuplication]
· simp [CZString.copy, CZString.ofCStrPolicy, noDuplication, duplicateOnCopy, duplicate]
· simp [CZString.copy, CZString.ofCStrPolicy, noDuplication, duplicate]
· simp [CZString.copy, CZString.ofIndex]

/-- Witness for C7: the amended statement instantiated at a concrete two-level
tree (an Object holding a string member) whose well-formedness is computed. -/
theorem c7_copy_deep_witness :
    Value.wf (Value.setKey Value.ctorDefault [98] (Value.ofStaticString [97])) = true
    ∧ Value.noNaNDeep
        (Value.setKey Value.ctorDefault [98] (Value.ofStaticString [97])) = true
    ∧ (Value.veq
        (Value.copyCtor (Value.setKey Value.ctorDefault [98] (Value.ofStaticString [97])))
        (Value.setKey Value.ctorDefault [98] (Value.ofStaticString [97])) = true
      ∧ ((Value.copyCtor (Value.setKey Value.ctorDefault [98]
            (Value.ofStaticString [97]))).allocated_ = true ↔
          ((Value.setKey Value.ctorDefault [98] (Value.ofStaticString [97])).type_
              = .stringValue
            ∧ (strOf (Value.setKey Value.ctorDefault [98]
                (Value.ofStaticString [97])).holder).isSome = true))
      ∧ CZString.copy (CZString.ofCStrPolicy [97] noDuplication)
          = CZString.ofCStrPolicy [97] noDuplication
      ∧ CZString.copy (CZString.ofCStrPolicy [97] duplicateOnCopy)
          = CZString.ofCStrPolicy [97] duplicate
      ∧ CZString.copy (CZString.ofCStrPolicy [97] duplicate)
          = CZString.ofCStrPolicy [97] duplicate
      ∧ CZString.copy (CZString.ofIndex 0) = CZString.ofIndex 0) := by
exact ⟨by decide, by decide, c7_copy_deep _ [97] 0 (by decide) (by decide)⟩

/-- C9: in the checked build, `asInt` signals RangeOverflow (a thrown
`std::runtime_error`, modelled as `.error` with the source's message) exactly
when the numeric payload lies outside the 32-bit signed range — in particular
on a UInt node holding `maxInt + 1` —, returns the natively converted value for
in-range numerics and Bool, and returns the caller-supplied default exactly
when the node is Null (formally: it returns every supplied default iff the tag
is Null). -/
theorem c9_asInt_checked :
    (∀ (u : Nat) (d : Int), maxInt < (u : Int) →
      Value.asInt (Value.ofUInt u) d = .error "unsigned integer out of signed int range")
    ∧ (∀ (u : Nat) (d : Int), (u : Int) ≤ maxInt →
      Value.asInt (Value.ofUInt u) d = .ok (u : Int))
    ∧ (∀ (i d : Int), minInt ≤ i → i ≤ maxInt →
      Value.asInt (Value.ofInt i) d = .ok i)
    ∧ (∀ (i d : Int), i < minInt ∨ maxInt < i →
      Value.asInt (Value.ofInt i) d = .error "unsigned integer out of signed int range")
    ∧ (∀ (q : ℚ) (d : Int), (minInt : ℚ) ≤ q → q ≤ (maxInt : ℚ) →
      Value.asInt (Value.ofReal q) d = .ok (Value.truncQ q))
    ∧ (∀ (q : ℚ) (d : Int), q < (minInt : ℚ) ∨ (maxInt : ℚ) < q →
      Value.asInt (Value.ofReal q) d = .error "Real out of signed integer range")
    ∧ (∀ (b : Bool) (d : Int), Value.asInt (Value.ofBool b) d = .ok (if b then 1 else 0))
    ∧ (∀ v : Value, (∀ d : Int, Value.asInt v d = .ok d) ↔ v.type_ = .nullValue) := by
refine ⟨?_, ?_, ?_, ?_, ?_, ?_, ?_, ?_⟩
· intro u d h
  simp only [Value.asInt, Value.ofUInt, Value.type_, Value.holder, ValueHolder.uintOf]
  rw [if_neg]
  omega
· intro u d h
  simp only [Value.asInt, Value.ofUInt, Value.type_, Value.holder, ValueHolder.uintOf]
  rw [if_pos h]
· intro i d h1 h2
  simp only [Value.asInt, Value.ofInt, Value.type_, Value.holder, ValueHolder.intOf]
  rw [if_pos ⟨h1, h2⟩]
· intro i d h
  simp only [Value.asInt, Value.ofInt, Value.type_, Value.holder, ValueHolder.intOf]
  rw [if_neg]
  omega
· intro q d h1 h2
  simp only [Value.asInt, Value.ofReal, Value.type_, Value.holder, ValueHolder.realOf]
  have hc : (DReal.leB (.fin (minInt : ℚ)) (DReal.fin q) &&
      DReal.leB (DReal.fin q) (.fin (maxInt : ℚ))) = true := by
    simp [DReal.leB, h1, h2]
  rw [if_pos hc]
  rfl
· intro q d h
  simp only [Value.asInt, Value.ofReal, Value.type_, Value.holder, ValueHolder.realOf]
  have hc : ¬((DReal.leB (.fin (minInt : ℚ)) (DReal.fin q) &&
      DReal.leB (DReal.fin q) (.fin (maxInt : ℚ))) = true) := by
    simp [DReal.leB]
    intro hge
    rcases h with h | h
    · linarith
    · linarith
  rw [if_neg hc]
· intro b d
  cases b <;> rfl
· intro v
  constructor
  · intro h
    rcases v with ⟨t, hh, al⟩
    cases t with
    | nullValue => rfl
    | intValue =>
      have h0 := h 0
      have h1 := h 1
      simp only [Value.asInt, Value.type_, Value.holder] at h0 h1
      split_ifs at h0 h1 <;> simp_all
    | uintValue =>
      have h0 := h 0
      have h1 := h 1
      simp only [Value.asInt, Value.type_, Value.holder] at h0 h1
      split_ifs at h0 h1 <;> simp_all
    | realValue =>
      have h0 := h 0
      have h1 := h 1
      simp only [Value.asInt, Value.type_, Value.holder] at h0 h1
      split_ifs at h0 h1 <;> simp_all
    | booleanValue =>
      have h0 := h 0
      have h1 := h 1
      simp only [Value.asInt, Value.type_, Value.holder] at h0 h1
      cases ValueHolder.boolOf hh <;> simp_all
    | stringValue =>
      have h0 := h 0
      simp only [Value.asInt, Value.type_, Value.holder] at h0
      simp_all
    | arrayValue =>
      have h0 := h 0
      simp only [Value.asInt, Value.type_, Value.holder] at h0
      simp_all
    | objectValue =>
      have h0 := h 0
      simp only [Value.asInt, Value.type_, Value.holder] at h0
      simp_all
  · intro h d
    rcases v with ⟨t, hh, al⟩
    simp only [Value.type_] at h
    subst h
    rfl

/-- Witness for C9: the range boundary `maxInt + 1 = 2^31` on a UInt node
signals the overflow error; in-range UInt/Int/Real/Bool values convert; the
default is returned for Null. -/
theorem c9_asInt_checked_witness :
    maxInt < ((2 ^ 31 : Nat) : Int)
    ∧ Value.asInt (Value.ofUInt (2 ^ 31)) 0
        = .error "unsigned integer out of signed int range"
    ∧ Value.asInt (Value.ofUInt 5) 0 = .ok 5
    ∧ Value.asInt (Value.ofInt (-3)) 7 = .ok (-3)
    ∧ Value.asInt (Value.ofInt (2 ^ 40)) 7
        = .error "unsigned integer out of signed int range"
    ∧ Value.asInt (Value.ofReal (7 / 2 : ℚ)) 0 = .ok (Value.truncQ (7 / 2 : ℚ))
    ∧ Value.asInt (Value.ofReal (2 ^ 40 : ℚ)) 0 = .error "Real out of signed integer range"
    ∧ Value.asInt (Value.ofBool true) 0 = .ok (if true then 1 else 0)
    ∧ (∀ d : Int, Value.asInt Value.ctorDefault d = .ok d) := by
refine ⟨by decide, c9_asInt_checked.1 (2 ^ 31) 0 (by decide),
  c9_asInt_checked.2.1 5 0 (by decide),
  c9_asInt_checked.2.2.1 (-3) 7 (by decide) (by decide),
  c9_asInt_checked.2.2.2.1 (2 ^ 40) 7 (by decide),
  c9_asInt_checked.2.2.2.2.1 (7 / 2 : ℚ) 0 (by norm_num [minInt, maxInt])
    (by norm_num [minInt, maxInt]),
  c9_asInt_checked.2.2.2.2.2.1 (2 ^ 40 : ℚ) 0 (by right; norm_num [minInt, maxInt]),
  c9_asInt_checked.2.2.2.2.2.2.1 true 0,
  (c9_asInt_checked.2.2.2.2.2.2.2 Value.ctorDefault).mpr rfl⟩

/-- The enumerator numbering is injective. -/
theorem toNat_inj (t1 t2 : ValueType) (h : t1.toNat = t2.toNat) : t1 = t2 := by
cases t1 <;> cases t2 <;> simp [ValueType.toNat] at h ⊢

/-- For distinct tags, `operator<` is exactly the tag order. -/
theorem vlt_ne_tag_iff (x y : Value) (h : x.type_ ≠ y.type_) :
    Value.vlt x y = true ↔ x.type_.toNat < y.type_.toNat := by
rcases x with ⟨t1, h1, a1⟩
rcases y with ⟨t2, h2, a2⟩
simp only [Value.type_] at h ⊢
have hne : (t1.toNat : Int) - (t2.toNat : Int) ≠ 0 := by
  intro hc
  exact h (toNat_inj t1 t2 (by omega))
unfold Value.vlt
rw [if_pos hne]
constructor
· intro hlt
  have := of_decide_eq_true hlt
  omega
· intro hlt
  apply decide_eq_true
  omega

/-- `operator< = true` forces the left tag to order no later than the right. -/
theorem vlt_tag_le (x y : Value) (h : Value.vlt x y = true) :
    x.type_.toNat ≤ y.type_.toNat := by
by_cases he : x.type_ = y.type_
· rw [he]
· have := (vlt_ne_tag_iff x y he).mp h
  omega

/-- For equal tags, `operator<` is the payload comparison of the source's
switch. -/
theorem vlt_same_tag (t : ValueType) (h1 h2 : ValueHolder) (a1 a2 : Bool) :
    Value.vlt (.mk t h1 a1) (.mk t h2 a2) =
      (match t with
      | .nullValue => false
      | .intValue => decide (intOf h1 < intOf h2)
      | .uintValue => decide (uintOf h1 < uintOf h2)
      | .realValue => DReal.ltB (realOf h1) (realOf h2)
      | .booleanValue => boolLtB (boolOf h1) (boolOf h2)
      | .stringValue => strOptLt (strOf h1) (strOf h2)
      | .arrayValue | .objectValue =>
        match h1, h2 with
        | .hmap m1, .hmap m2 =>
          let d := int32OfSizeDelta m1.length m2.length
          if d ≠ 0 then decide (d < 0) else entriesLexLt m1 m2
        | _, _ => false) := by
unfold Value.vlt
rw [if_neg (by omega)]

/-- For distinct tags, `operator==` is `false`. -/
theorem veq_ne_tag (x y : Value) (h : x.type_ ≠ y.type_) : Value.veq x y = false := by
rcases x with ⟨t1, h1, a1⟩
rcases y with ⟨t2, h2, a2⟩
simp only [Value.type_] at h
unfold Value.veq
rw [if_pos h]

/-- For equal tags, `operator==` is the payload equality of the source's
switch. -/
theorem veq_same_tag (t : ValueType) (h1 h2 : ValueHolder) (a1 a2 : Bool) :
    Value.veq (.mk t h1 a1) (.mk t h2 a2) =
      (match t with
      | .nullValue => true
      | .intValue => decide (intOf h1 = intOf h2)
      | .uintValue => decide (uintOf h1 = uintOf h2)
      | .realValue => DReal.eqB (realOf h1) (realOf h2)
      | .booleanValue => boolOf h1 == boolOf h2
      | .stringValue => strOptEq (strOf h1) (strOf h2)
      | .arrayValue | .objectValue =>
        match h1, h2 with
        | .hmap m1, .hmap m2 => decide (m1.length = m2.length) && entriesEq m1 m2
        | _, _ => false) := by
unfold Value.veq
rw [if_neg (by simp)]

/-- `operator<` is irreflexive on scalar-tagged nodes. -/
theorem vlt_irrefl_scalar (x : Value) (hx : x.scalarTag) : Value.vlt x x = false := by
rcases x with ⟨t, h, a⟩
rcases hx with ⟨hx1, hx2⟩
simp only [Value.type_] at hx1 hx2
rw [vlt_same_tag]
cases t with
| nullValue => rfl
| intValue => simp
| uintValue => simp
| realValue => exact dreal_lt_irrefl _
| booleanValue => cases boolOf h <;> simp [boolLtB]
| stringValue =>
  cases strOf h with
  | none => rfl
  | some s => simp [strOptLt, strcmp_self]
| arrayValue => exact absurd rfl hx1
| objectValue => exact absurd rfl hx2

/-- `operator<` is asymmetric on scalar-tagged nodes. -/
theorem vlt_asymm_scalar (x y : Value) (hx : x.scalarTag) (hy : y.scalarTag)
    (h : Value.vlt x y = true) : Value.vlt y x = false := by
by_cases he : x.type_ = y.type_
· rcases x with ⟨t1, hh1, a1⟩
  rcases y with ⟨t2, hh2, a2⟩
  simp only [Value.type_] at he
  subst he
  rcases hx with ⟨hx1, hx2⟩
  simp only [Value.type_] at hx1 hx2
  rw [vlt_same_tag] at h ⊢
  cases t1 with
  | nullValue => simp at h
  | intValue =>
    simp at h ⊢
    omega
  | uintValue =>
    simp at h ⊢
    omega
  | realValue => exact dreal_lt_asymm _ _ h
  | booleanValue =>
    revert h
    cases boolOf hh1 <;> cases boolOf hh2 <;> simp [boolLtB]
  | stringValue =>
    revert h
    cases strOf hh1 <;> cases strOf hh2 <;> simp [strOptLt]
    rename_i s1 s2
    rw [strcmp_antisymm s2 s1]
    omega
  | arrayValue => exact absurd rfl hx1
  | objectValue => exact absurd rfl hx2
· rcases Bool.eq_false_or_eq_true (Value.vlt y x) with ht | hf
  · exfalso
    have l1 := (vlt_ne_tag_iff x y he).mp h
    have l2 := (vlt_ne_tag_iff y x (Ne.symm he)).mp ht
    omega
  · exact hf

/-- `operator<` is transitive on scalar-tagged nodes. -/
theorem vlt_trans_scalar (x y z : Value) (hx : x.scalarTag) (hy : y.scalarTag)
    (hz : z.scalarTag) (h1 : Value.vlt x y = true) (h2 : Value.vlt y z = true) :
    Value.vlt x z = true := by
have lxy := vlt_tag_le x y h1
have lyz := vlt_tag_le y z h2
by_cases he : x.type_ = z.type_
· have hts : x.type_.toNat = z.type_.toNat := by rw [he]
  have exy : x.type_ = y.type_ := toNat_inj _ _ (by omega)
  have eyz : y.type_ = z.type_ := toNat_inj _ _ (by omega)
  rcases x with ⟨t1, hh1, a1⟩
  rcases y with ⟨t2, hh2, a2⟩
  rcases z with ⟨t3, hh3, a3⟩
  simp only [Value.type_] at exy eyz
  subst exy
  subst eyz
  rcases hx with ⟨hx1, hx2⟩
  simp only [Value.type_] at hx1 hx2
  rw [vlt_same_tag] at h1 h2 ⊢
  cases t1 with
  | nullValue => simp at h1
  | intValue =>
    simp at h1 h2 ⊢
    omega
  | uintValue =>
    simp at h1 h2 ⊢
    omega
  | realValue => exact dreal_lt_trans _ _ _ h1 h2
  | booleanValue =>
    revert h1 h2
    cases boolOf hh1 <;> cases boolOf hh2 <;> cases boolOf hh3 <;> simp [boolLtB]
  | stringValue =>
    revert h1 h2
    cases strOf hh1 <;> cases strOf hh2 <;> cases strOf hh3 <;> simp [strOptLt]
    rename_i s1 s2 s3
    exact strcmp_lt_trans s1 s2 s3
  | arrayValue => exact absurd rfl hx1
  | objectValue => exact absurd rfl hx2
· have hne : x.type_.toNat ≠ z.type_.toNat := fun hc => he (toNat_inj _ _ hc)
  exact (vlt_ne_tag_iff x z he).mpr (by omega)

/-- Trichotomy on scalar-tagged nodes away from NaN: `<`, `>` or `==` always
holds. -/
theorem vlt_total_scalar (x y : Value) (hx : x.scalarTag) (hy : y.scalarTag)
    (hnx : x.notNaN) (hny : y.notNaN) :
    Value.vlt x y = true ∨ Value.vlt y x = true ∨ Value.veq x y = true := by
by_cases he : x.type_ = y.type_
· rcases x with ⟨t1, hh1, a1⟩
  rcases y with ⟨t2, hh2, a2⟩
  simp only [Value.notNaN, Value.holder] at hnx hny
  simp only [Value.type_] at he
  subst he
  rcases hx with ⟨hx1, hx2⟩
  simp only [Value.type_] at hx1 hx2
  rw [vlt_same_tag, vlt_same_tag, veq_same_tag]
  cases t1 with
  | nullValue => right; right; rfl
  | intValue =>
    simp
    omega
  | uintValue =>
    simp
    omega
  | realValue => exact dreal_total _ _ hnx hny
  | booleanValue =>
    cases boolOf hh1 <;> cases boolOf hh2 <;> simp [boolLtB]
  | stringValue =>
    cases strOf hh1 <;> cases strOf hh2 <;> simp [strOptLt, strOptEq]
    rename_i s1 s2
    rcases strcmp_cases s1 s2 with h | h | h
    · exact Or.inl h
    · exact Or.inr (Or.inr h)
    · right
      left
      rw [strcmp_antisymm s1 s2]
      omega
  | arrayValue => exact absurd rfl hx1
  | objectValue => exact absurd rfl hx2
· have hne : x.type_.toNat ≠ y.type_.toNat := fun hc => he (toNat_inj _ _ hc)
  rcases Nat.lt_or_ge x.type_.toNat y.type_.toNat with h | h
  · exact Or.inl ((vlt_ne_tag_iff x y he).mpr h)
  · exact Or.inr (Or.inl ((vlt_ne_tag_iff y x (Ne.symm he)).mpr (by omega)))

/-- On scalar-tagged nodes away from NaN, `operator==` holds exactly when
neither operand is `operator<` the other. -/
theorem veq_iff_not_lt_scalar (x y : Value) (hx : x.scalarTag) (hy : y.scalarTag)
    (hnx : x.notNaN) (hny : y.notNaN) :
    Value.veq x y = (!Value.vlt x y && !Value.vlt y x) := by
by_cases he : x.type_ = y.type_
· rcases x with ⟨t1, hh1, a1⟩
  rcases y with ⟨t2, hh2, a2⟩
  simp only [Value.notNaN, Value.holder] at hnx hny
  simp only [Value.type_] at he
  subst he
  rcases hx with ⟨hx1, hx2⟩
  simp only [Value.type_] at hx1 hx2
  rw [vlt_same_tag, vlt_same_tag, veq_same_tag]
  cases t1 with
  | nullValue => rfl
  | intValue =>
    rcases lt_trichotomy (intOf hh1) (intOf hh2) with h | h | h
    · simp [h, ne_of_lt h, not_lt_of_gt h]
    · simp [h]
    · simp [h, (ne_of_lt h).symm, not_lt_of_gt h]
  | uintValue =>
    rcases lt_trichotomy (uintOf hh1) (uintOf hh2) with h | h | h
    · simp [h, ne_of_lt h, not_lt_of_gt h]
    · simp [h]
    · simp [h, (ne_of_lt h).symm, not_lt_of_gt h]
  | realValue => exact dreal_eq_iff _ _ hnx hny
  | booleanValue =>
    cases boolOf hh1 <;> cases boolOf hh2 <;> simp [boolLtB]
  | stringValue =>
    cases strOf hh1 <;> cases strOf hh2 <;> simp [strOptLt, strOptEq]
    rename_i s1 s2
    rw [strcmp_antisymm s1 s2]
    rcases strcmp_cases s1 s2 with h | h | h
    · have h1 : strcmp s1 s2 ≠ 0 := by omega
      have h2 : ¬(-strcmp s1 s2 < 0) := by omega
      simp [h, h1, h2]
    · have h1 : ¬(strcmp s1 s2 < 0) := by omega
      have h2 : ¬(-strcmp s1 s2 < 0) := by omega
      simp [h, h1, h2]
    · have h0 : strcmp s1 s2 ≠ 0 := by omega
      have h1 : ¬(strcmp s1 s2 < 0) := by omega
      have h2 : -strcmp s1 s2 < 0 := by omega
      simp [h0, h1, h2]
  | arrayValue => exact absurd rfl hx1
  | objectValue => exact absurd rfl hx2
· rw [veq_ne_tag x y he]
  have hne : x.type_.toNat ≠ y.type_.toNat := fun hc => he (toNat_inj _ _ hc)
  rcases Nat.lt_or_ge x.type_.toNat y.type_.toNat with h | h
  · rw [(vlt_ne_tag_iff x y he).mpr h]
    simp
  · rw [(vlt_ne_tag_iff y x (Ne.symm he)).mpr (by omega)]
    simp

/-- C8 counterexample: a Real node holding NaN (constructible through
`Value(double)`) falsifies the claimed strict total order and its agreements on
scalar nodes, exactly as IEEE comparison semantics dictate: with x = y = that
node, neither `x < y` nor `y < x` holds yet `x == y` is false — so trichotomy
fails and "x == y iff neither x < y nor y < x" fails — and `compare` returns 0
for operands `operator==` calls unequal. -/
theorem c8_counterexample :
    (Value.ofRealD DReal.nan).scalarTag
    ∧ Value.vlt (Value.ofRealD DReal.nan) (Value.ofRealD DReal.nan) = false
    ∧ Value.veq (Value.ofRealD DReal.nan) (Value.ofRealD DReal.nan) = false
    ∧ Value.veq (Value.ofRealD DReal.nan) (Value.ofRealD DReal.nan)
        ≠ (!Value.vlt (Value.ofRealD DReal.nan) (Value.ofRealD DReal.nan)
            && !Value.vlt (Value.ofRealD DReal.nan) (Value.ofRealD DReal.nan))
    ∧ Value.compare (Value.ofRealD DReal.nan) (Value.ofRealD DReal.nan) = 0 := by
have hlt : Value.vlt (Value.ofRealD DReal.nan) (Value.ofRealD DReal.nan) = false := by
  show Value.vlt (.mk .realValue (.hreal .nan) false)
      (.mk .realValue (.hreal .nan) false) = false
  rw [vlt_same_tag]
  rfl
have hq : Value.veq (Value.ofRealD DReal.nan) (Value.ofRealD DReal.nan) = false := rfl
refine ⟨by decide, hlt, hq, ?_, ?_⟩
· rw [hlt, hq]
  simp
· simp [Value.compare, hlt]

/-- C8 (amended): for nodes of distinct tags, `operator<` is decided solely by
the fixed tag order Null < Int < UInt < Real < String < Bool < Array < Object,
whatever the payloads; on scalar-tagged nodes `operator<` is irreflexive,
asymmetric and transitive, and — provided neither operand is a NaN Real, the
one value IEEE comparisons exempt — trichotomous with `operator==`, which then
holds exactly when neither `<` does; `<=`, `>=`, `>`, `!=` and `compare` are
derived from `<`/`==` exactly as claimed, for all nodes. -/
theorem c8_ordering_amended (a b x y z : Value)
    (hx : x.scalarTag) (hy : y.scalarTag) (hz : z.scalarTag) :
    (a.type_ ≠ b.type_ → (Value.vlt a b = true ↔ a.type_.toNat < b.type_.toNat))
    ∧ Value.vlt x x = false
    ∧ (Value.vlt x y = true → Value.vlt y x = false)
    ∧ (Value.vlt x y = true → Value.vlt y z = true → Value.vlt x z = true)
    ∧ (x.notNaN → y.notNaN →
        (Value.vlt x y = true ∨ Value.vlt y x = true ∨ Value.veq x y = true))
    ∧ (x.notNaN → y.notNaN →
        Value.veq x y = (!Value.vlt x y && !Value.vlt y x))
    ∧ Value.vle x y = !Value.vlt y x
    ∧ Value.vge x y = !Value.vlt x y
    ∧ Value.vgt x y = Value.vlt y x
    ∧ Value.vne x y = !Value.veq x y
    ∧ Value.compare x y
        = (if Value.vlt x y then -1 else if Value.vlt y x then 1 else 0) := by
exact ⟨fun h => vlt_ne_tag_iff a b h,
  vlt_irrefl_scalar x hx,
  fun h => vlt_asymm_scalar x y hx hy h,
  fun h1 h2 => vlt_trans_scalar x y z hx hy hz h1 h2,
  fun hnx hny => vlt_total_scalar x y hx hy hnx hny,
  fun hnx hny => veq_iff_not_lt_scalar x y hx hy hnx hny,
  rfl, rfl, rfl, rfl, rfl⟩

/-- Witness for C8: the amended ordering facts instantiated at the mixed-tag
pair (Int 1, Bool false) — differing tags, ordered by tag despite 1 > 0 — and
at the scalar triple (Int 2, UInt 7, String "a"). -/
theorem c8_ordering_amended_witness :
    (Value.ofInt 2).scalarTag
    ∧ (Value.ofUInt 7).scalarTag
    ∧ (Value.ofCString [97]).scalarTag
    ∧ ((Value.ofInt 1).type_ ≠ (Value.ofBool false).type_ →
        (Value.vlt (Value.ofInt 1) (Value.ofBool false) = true ↔
          (Value.ofInt 1).type_.toNat < (Value.ofBool false).type_.toNat))
    ∧ Value.vlt (Value.ofInt 2) (Value.ofInt 2) = false
    ∧ (Value.vlt (Value.ofInt 2) (Value.ofUInt 7) = true →
        Value.vlt (Value.ofUInt 7) (Value.ofInt 2) = false)
    ∧ (Value.vlt (Value.ofInt 2) (Value.ofUInt 7) = true →
        Value.vlt (Value.ofUInt 7) (Value.ofCString [97]) = true →
        Value.vlt (Value.ofInt 2) (Value.ofCString [97]) = true)
    ∧ ((Value.ofInt 2).notNaN → (Value.ofUInt 7).notNaN →
        (Value.vlt (Value.ofInt 2) (Value.ofUInt 7) = true
          ∨ Value.vlt (Value.ofUInt 7) (Value.ofInt 2) = true
          ∨ Value.veq (Value.ofInt 2) (Value.ofUInt 7) = true))
    ∧ ((Value.ofInt 2).notNaN → (Value.ofUInt 7).notNaN →
        Value.veq (Value.ofInt 2) (Value.ofUInt 7)
          = (!Value.vlt (Value.ofInt 2) (Value.ofUInt 7)
              && !Value.vlt (Value.ofUInt 7) (Value.ofInt 2)))
    ∧ Value.vle (Value.ofInt 2) (Value.ofUInt 7)
        = !Value.vlt (Value.ofUInt 7) (Value.ofInt 2)
    ∧ Value.vge (Value.ofInt 2) (Value.ofUInt 7)
        = !Value.vlt (Value.ofInt 2) (Value.ofUInt 7)
    ∧ Value.vgt (Value.ofInt 2) (Value.ofUInt 7)
        = Value.vlt (Value.ofUInt 7) (Value.ofInt 2)
    ∧ Value.vne (Value.ofInt 2) (Value.ofUInt 7)
        = !Value.veq (Value.ofInt 2) (Value.ofUInt 7)
    ∧ Value.compare (Value.ofInt 2) (Value.ofUInt 7)
        = (if Value.vlt (Value.ofInt 2) (Value.ofUInt 7) then -1
          else if Value.vlt (Value.ofUInt 7) (Value.ofInt 2) then 1 else 0) := by
refine ⟨by decide, by decide, by decide, ?_⟩
exact c8_ordering_amended (Value.ofInt 1) (Value.ofBool false) (Value.ofInt 2)
  (Value.ofUInt 7) (Value.ofCString [97]) (by decide) (by decide) (by decide)

end JsonModel
